import Mathlib

/- Verification of the PCM playback core of the EnglishSWJ (LinguaFlow)
   repository: the decoder rawPcmToAudioBuffer, the PCMPlayer transport
   class from the audio service module, and the activeLineIndex mapping
   from the DialogueCard component.

   Modelling conventions:
   - JavaScript numbers are modelled as rationals; machine floating
     point is not modelled (all quantities involved are exact in the
     claims considered).
   - Byte sequences (Uint8Array) are modelled as List Nat; the decoder
     reduces entries mod 256, matching Uint8Array storage semantics.
   - Callbacks are modelled by opaque identifiers (Option Nat): a value
     records which function object was registered, nothing else.
   - The Web Audio platform is modelled at the granularity the claims
     need: creating and starting an AudioBufferSourceNode is recorded as
     an Ev.started event and as the node held in the player source
     field; stopping a started node makes the platform fire that node's
     registered onended handler asynchronously, recorded as an
     Ev.endedQueued event whose later delivery is the handleEnded step
     (per the Web Audio specification the ended event fires both on
     natural exhaustion and when stop() is called).
     audioContext.createBuffer is fallible: per the Web Audio
     specification it throws NotSupportedError when the requested frame
     count is zero, so the decoder and load return Except values.
     Start-offset validation inside source.start and the AudioContext
     suspended/resume handshake are not modelled: they do not touch the
     transport state the claims are about.
   - The requestAnimationFrame progress-poll bookkeeping
     (animationFrameId and cancelAnimationFrame) is not modelled; no
     claim below refers to it and it has no effect on transport state. -/

namespace SWJ

/-- Signed 16-bit little-endian integer assembled from two bytes, as read
by DataView.getInt16 with littleEndian = true in rawPcmToAudioBuffer.
Byte values are reduced mod 256, matching Uint8Array storage. -/
def int16LE (b0 b1 : Nat) : Int :=
  let u : Nat := b0 % 256 + 256 * (b1 % 256)
  if u < 32768 then (u : Int) else (u : Int) - 65536

/-- The sample list produced by the decoding loop of rawPcmToAudioBuffer:
usableLength = length - (length % 2), numSamples = usableLength / 2, and
channelData[i] = view.getInt16(i * 2, true) / 32768.0. -/
def pcmSamples : List Nat → List ℚ
  | [] => []
  | [_] => []
  | b0 :: b1 :: rest => ((int16LE b0 b1 : ℚ) / 32768) :: pcmSamples rest

/-- A decoded mono AudioBuffer: normalized samples plus the sample rate
passed to audioContext.createBuffer. -/
structure AudioBuffer where
  samples : List ℚ
  sampleRate : ℚ
deriving DecidableEq

/-- Web Audio buffer duration: sample count divided by sample rate. -/
def AudioBuffer.duration (b : AudioBuffer) : ℚ :=
  (b.samples.length : ℚ) / b.sampleRate

/-- DOMException kinds raised by the modelled platform calls. -/
inductive DomException where
  | NotSupportedError
deriving DecidableEq

/-- Embedding of rawPcmToAudioBuffer(pcmData, audioContext, sampleRate).
usableLength = length - length % 2 and numSamples = usableLength / 2 as
in the source; audioContext.createBuffer(1, numSamples, sampleRate)
throws NotSupportedError when numSamples is 0 (the Web Audio
specification requires the exception for a zero frame count; at the
fixed in-range rate 24000 no other validation applies), otherwise the
created buffer is filled with the decoded samples.  The sampleRate
default of 24000 is applied explicitly at the call site
(PCMPlayer.load). -/
def rawPcmToAudioBuffer (pcmData : List Nat) (sampleRate : ℚ) :
    Except DomException AudioBuffer :=
  let usableLength := pcmData.length - pcmData.length % 2
  let numSamples := usableLength / 2
  if numSamples = 0 then Except.error DomException.NotSupportedError
  else Except.ok { samples := pcmSamples pcmData, sampleRate := sampleRate }

/-- On inputs holding at least one complete byte pair, the decoder
returns the buffer of decoded samples. -/
theorem rawPcm_ok (pcmData : List Nat) (sampleRate : ℚ)
    (h : 2 ≤ pcmData.length) :
    rawPcmToAudioBuffer pcmData sampleRate
      = Except.ok { samples := pcmSamples pcmData, sampleRate := sampleRate } := by
  unfold rawPcmToAudioBuffer
  rw [if_neg (by omega)]

/-- On inputs with fewer than 2 bytes (zero usable samples), the
decoder propagates createBuffer's NotSupportedError. -/
theorem rawPcm_err (pcmData : List Nat) (sampleRate : ℚ)
    (h : pcmData.length < 2) :
    rawPcmToAudioBuffer pcmData sampleRate
      = Except.error DomException.NotSupportedError := by
  unfold rawPcmToAudioBuffer
  rw [if_pos (by omega)]

/-- The decoder emits one sample per complete byte pair. -/
theorem pcmSamples_length : ∀ bytes : List Nat,
    (pcmSamples bytes).length = bytes.length / 2
  | [] => rfl
  | [_] => by simp [pcmSamples]
  | _ :: _ :: rest => by
      simp only [pcmSamples, List.length_cons, pcmSamples_length rest]
      omega

/-- Sample i is the signed 16-bit little-endian integer at bytes 2i and
2i+1, divided by 32768. -/
theorem pcmSamples_getD : ∀ (bytes : List Nat) (i : Nat),
    2 * i + 1 < bytes.length →
    (pcmSamples bytes).getD i 0
      = ((int16LE (bytes.getD (2 * i) 0) (bytes.getD (2 * i + 1) 0) : ℚ) / 32768)
  | [], i, h => by simp only [List.length_nil] at h; omega
  | [_], i, h => by simp only [List.length_cons, List.length_nil] at h; omega
  | b0 :: b1 :: rest, 0, _ => by simp [pcmSamples]
  | b0 :: b1 :: rest, i + 1, h => by
      have hlt : 2 * i + 1 < rest.length := by
        simp only [List.length_cons] at h; omega
      have ih := pcmSamples_getD rest i hlt
      have e1 : 2 * (i + 1) = 2 * i + 1 + 1 := by ring
      have e2 : 2 * (i + 1) + 1 = (2 * i + 1) + 1 + 1 := by ring
      simp only [pcmSamples, List.getD_cons_succ, e1, e2]
      exact ih

/-- Decoding ignores a trailing odd byte: the result equals decoding the
even-length prefix. -/
theorem pcmSamples_take : ∀ bytes : List Nat,
    pcmSamples bytes = pcmSamples (bytes.take (2 * (bytes.length / 2)))
  | [] => rfl
  | [_] => by simp [pcmSamples]
  | b0 :: b1 :: rest => by
      have e : 2 * ((b0 :: b1 :: rest).length / 2) = 2 * (rest.length / 2) + 1 + 1 := by
        simp only [List.length_cons]; omega
      rw [e, List.take_succ_cons, List.take_succ_cons]
      simp only [pcmSamples]
      rw [← pcmSamples_take rest]

/-- Counterexample for C8: zero-length input does not yield a buffer
with zero samples - the decoder raises NotSupportedError, because the
source calls audioContext.createBuffer(1, 0, 24000) and the Web Audio
specification requires the exception for a zero frame count; the same
happens for a single-byte input, whose usable length is also zero. -/
theorem decode_empty_throws :
    rawPcmToAudioBuffer [] 24000 = Except.error DomException.NotSupportedError
    ∧ rawPcmToAudioBuffer [7] 24000
        = Except.error DomException.NotSupportedError :=
  ⟨rfl, rfl⟩

/-- C8 (amended): for every byte sequence with at least one complete
byte pair, the decoder returns a buffer of exactly floor(length/2)
samples, where sample i equals the signed 16-bit little-endian integer
formed from bytes 2i and 2i+1 divided by 32768; a trailing odd byte is
ignored, so the result always equals decoding the even-length prefix;
but input with fewer than 2 bytes (in particular zero-length input)
raises NotSupportedError from createBuffer instead of yielding a buffer
with zero samples. -/
theorem decode_pcm (bytes : List Nat) :
    (2 ≤ bytes.length →
      rawPcmToAudioBuffer bytes 24000
        = Except.ok { samples := pcmSamples bytes, sampleRate := 24000 })
    ∧ (bytes.length < 2 →
      rawPcmToAudioBuffer bytes 24000
        = Except.error DomException.NotSupportedError)
    ∧ (pcmSamples bytes).length = bytes.length / 2
    ∧ (∀ i : Nat, 2 * i + 1 < bytes.length →
        (pcmSamples bytes).getD i 0
          = ((int16LE (bytes.getD (2 * i) 0) (bytes.getD (2 * i + 1) 0) : ℚ) / 32768))
    ∧ rawPcmToAudioBuffer bytes 24000
        = rawPcmToAudioBuffer (bytes.take (2 * (bytes.length / 2))) 24000 := by
  refine ⟨fun h => rawPcm_ok bytes 24000 h, fun h => rawPcm_err bytes 24000 h,
    pcmSamples_length bytes, fun i h => pcmSamples_getD bytes i h, ?_⟩
  have hlen : (bytes.take (2 * (bytes.length / 2))).length
      = 2 * (bytes.length / 2) := by
    rw [List.length_take]
    omega
  have hnum : ((bytes.take (2 * (bytes.length / 2))).length
        - (bytes.take (2 * (bytes.length / 2))).length % 2) / 2
      = (bytes.length - bytes.length % 2) / 2 := by
    rw [hlen]
    omega
  simp only [rawPcmToAudioBuffer]
  rw [hnum, ← pcmSamples_take bytes]

/-- Concrete odd-length byte sequence used as the witness input for C8. -/
def bW : List Nat := [52, 1, 0, 128, 7]

/-- Witness for C8 at the concrete 5-byte input bW. -/
theorem decode_pcm_witness :
    (2 ≤ bW.length)
    ∧ rawPcmToAudioBuffer bW 24000
        = Except.ok { samples := pcmSamples bW, sampleRate := 24000 }
    ∧ (pcmSamples bW).length = bW.length / 2
    ∧ (pcmSamples bW).getD 1 0
        = ((int16LE (bW.getD (2 * 1) 0) (bW.getD (2 * 1 + 1) 0) : ℚ) / 32768)
    ∧ rawPcmToAudioBuffer bW 24000
        = rawPcmToAudioBuffer (bW.take (2 * (bW.length / 2))) 24000 :=
  ⟨by decide, (decode_pcm bW).1 (by decide), (decode_pcm bW).2.2.1,
   (decode_pcm bW).2.2.2.1 1 (by decide), (decode_pcm bW).2.2.2.2⟩

/-- The assembled 16-bit value lies in the int16 range. -/
theorem int16LE_bounds (b0 b1 : Nat) :
    -32768 ≤ int16LE b0 b1 ∧ int16LE b0 b1 < 32768 := by
  unfold int16LE
  dsimp only
  split <;> constructor <;> omega

/-- Every decoded sample lies in the half-open interval from -1 to 1. -/
theorem pcmSamples_mem_range : ∀ (bytes : List Nat) (q : ℚ),
    q ∈ pcmSamples bytes → -1 ≤ q ∧ q < 1
  | [], q, hq => by simp [pcmSamples] at hq
  | [_], q, hq => by simp [pcmSamples] at hq
  | b0 :: b1 :: rest, q, hq => by
      rcases List.mem_cons.mp hq with h | h
      · subst h
        have hb := int16LE_bounds b0 b1
        have h1 : (-32768 : ℚ) ≤ (int16LE b0 b1 : ℚ) := by exact_mod_cast hb.1
        have h2 : ((int16LE b0 b1 : ℚ)) < 32768 := by exact_mod_cast hb.2
        constructor
        · rw [le_div_iff₀ (by norm_num : (0:ℚ) < 32768)]
          linarith
        · rw [div_lt_one (by norm_num : (0:ℚ) < 32768)]
          exact h2
      · exact pcmSamples_mem_range rest q h

/-- C10: every sample produced by the decoder lies in the half-open
interval from -1 (inclusive) to 1 (exclusive), and -1 is attainable
(bytes 0x00 0x80 decode to -32768 / 32768 = -1). -/
theorem pcm_sample_range :
    (∀ (bytes : List Nat) (q : ℚ), q ∈ pcmSamples bytes → -1 ≤ q ∧ q < 1)
    ∧ (-1 : ℚ) ∈ pcmSamples [0, 128] := by
  constructor
  · exact pcmSamples_mem_range
  · have h : pcmSamples [0, 128] = [-1] := by norm_num [pcmSamples, int16LE]
    rw [h]
    simp

/-- Witness for C10: the attainable extreme sample -1 satisfies the range
bounds. -/
theorem pcm_sample_range_witness :
    (-1 : ℚ) ∈ pcmSamples [0, 128] ∧ (-1 ≤ (-1 : ℚ) ∧ (-1 : ℚ) < 1) :=
  ⟨pcm_sample_range.2, pcm_sample_range.1 [0, 128] (-1) pcm_sample_range.2⟩

/-- Truncation toward zero, as used by the JavaScript remainder operator. -/
def ratTrunc (q : ℚ) : Int :=
  if 0 ≤ q then Int.floor q else Int.ceil q

/-- The JavaScript remainder operator a % d for finite operands with
d positive: a - d * trunc(a / d); the result carries the sign of a.
This is the operator applied in getCurrentTime when looping. -/
def jsRem (a d : ℚ) : ℚ :=
  a - d * (ratTrunc (a / d) : ℚ)

/-- A started AudioBufferSourceNode as configured by PCMPlayer.play:
the buffer, rate and loop flag assigned to the node, the offset passed
to start(0, offset), and the onEnded callback captured by the onended
handler closure installed on the node. -/
structure SourceNode where
  buffer : AudioBuffer
  rate : ℚ
  loop : Bool
  startOffset : ℚ
  sessionOnEnded : Option Nat
deriving DecidableEq

/-- Observable platform effects of a transport operation.
started records source.start(0, offset) with the node's rate and loop
flag; endedQueued records that a started node was stopped, so the
platform will asynchronously fire the onended handler that captured the
given onEnded callback; endedInvoked records an actual invocation of a
registered onEnded callback. -/
inductive Ev where
  | started (offset rate : ℚ) (loop : Bool)
  | endedQueued (cb : Option Nat)
  | endedInvoked (cb : Nat)
deriving DecidableEq

/-- The fields of the PCMPlayer class (audioContext omitted: it is the
shared 24 kHz context and only its clock, passed as the now arguments
below, enters the transport state). -/
@[ext]
structure PCMPlayer where
  buffer : Option AudioBuffer
  source : Option SourceNode
  isPlaying : Bool
  playbackRate : ℚ
  pauseOffset : ℚ
  startTime : ℚ
  onProgressCb : Option Nat
  onEndedCb : Option Nat
  loop : Bool
deriving DecidableEq

namespace PCMPlayer

/-- The freshly constructed player: no buffer, not playing, rate 1,
offset 0, no callbacks, loop off. -/
def initialPlayer : PCMPlayer :=
  { buffer := none, source := none, isPlaying := false, playbackRate := 1,
    pauseOffset := 0, startTime := 0, onProgressCb := none,
    onEndedCb := none, loop := false }

/-- Effect of this.source?.stop(): stopping a started node makes the
platform queue its ended event, which will run the onended handler that
captured the node's session onEnded callback. A null source is a no-op. -/
def stopSourceEvs (p : PCMPlayer) : List Ev :=
  match p.source with
  | some s => [Ev.endedQueued s.sessionOnEnded]
  | none => []

/-- PCMPlayer.load(rawPcm): decode and install the new buffer, reset
pauseOffset to 0. The method touches nothing else: it does not stop an
active source and emits no platform effect. When the decoder throws
(fewer than 2 bytes), the exception escapes before this.buffer is
assigned, so the player is left completely unchanged. -/
def load (rawPcm : List Nat) (p : PCMPlayer) :
    Except DomException (PCMPlayer × List Ev) :=
  match rawPcmToAudioBuffer rawPcm 24000 with
  | Except.error e => Except.error e
  | Except.ok b => Except.ok ({ p with buffer := some b, pauseOffset := 0 }, [])

/-- PCMPlayer.setRate(rate): store the rate and, when a source node is
live, change its playbackRate.value in place. -/
def setRate (rate : ℚ) (p : PCMPlayer) : PCMPlayer :=
  { p with playbackRate := rate,
           source := p.source.map (fun s => { s with rate := rate }) }

/-- PCMPlayer.play(onProgress, onEnded, loop): returns untouched if no
buffer is loaded or already playing (the guard after the context resume,
which itself does not affect transport state); otherwise registers the
callbacks and loop flag, creates and starts a source node at pauseOffset
with the current playbackRate, records startTime = now and sets
isPlaying. The progress timer it starts is not modelled. -/
def play (onProgress onEnded : Option Nat) (lp : Bool) (now : ℚ)
    (p : PCMPlayer) : PCMPlayer × List Ev :=
  match p.buffer with
  | none => (p, [])
  | some b =>
      if p.isPlaying then (p, [])
      else
        ({ p with
            onProgressCb := onProgress,
            onEndedCb := onEnded,
            loop := lp,
            source := some { buffer := b, rate := p.playbackRate, loop := lp,
                             startOffset := p.pauseOffset,
                             sessionOnEnded := onEnded },
            startTime := now,
            isPlaying := true },
         [Ev.started p.pauseOffset p.playbackRate lp])

/-- PCMPlayer.pause(): no-op if not playing; otherwise freeze
pauseOffset += (now - startTime) * playbackRate, stop and drop the
source, clear isPlaying. -/
def pause (now : ℚ) (p : PCMPlayer) : PCMPlayer × List Ev :=
  if p.isPlaying then
    ({ p with
        pauseOffset := p.pauseOffset + (now - p.startTime) * p.playbackRate,
        source := none,
        isPlaying := false },
     stopSourceEvs p)
  else (p, [])

/-- PCMPlayer.stop(): unconditionally stop and drop the source, clear
isPlaying, reset pauseOffset to 0. -/
def stop (p : PCMPlayer) : PCMPlayer × List Ev :=
  ({ p with source := none, isPlaying := false, pauseOffset := 0 },
   stopSourceEvs p)

/-- PCMPlayer.seek(seconds): record whether playback was active, stop,
set pauseOffset = seconds, and if it was active restart via play with
the previously registered callbacks and the stored loop flag. -/
def seek (seconds now : ℚ) (p : PCMPlayer) : PCMPlayer × List Ev :=
  let wasPlaying := p.isPlaying
  let r1 := stop p
  let p2 := { r1.fst with pauseOffset := seconds }
  if wasPlaying then
    let r2 := play p2.onProgressCb p2.onEndedCb p2.loop now p2
    (r2.fst, r1.snd ++ r2.snd)
  else (p2, r1.snd)

/-- PCMPlayer.getDuration(): this.buffer?.duration || 0. -/
def getDuration (p : PCMPlayer) : ℚ :=
  match p.buffer with
  | some b => b.duration
  | none => 0

/-- PCMPlayer.getCurrentTime(): the stored pauseOffset when not playing;
otherwise pauseOffset + (now - startTime) * playbackRate, reduced by the
JavaScript remainder modulo the buffer duration when this.loop and
this.buffer hold. -/
def getCurrentTime (now : ℚ) (p : PCMPlayer) : ℚ :=
  if p.isPlaying then
    let time := p.pauseOffset + (now - p.startTime) * p.playbackRate
    match p.buffer with
    | some b => if p.loop then jsRem time b.duration else time
    | none => time
  else p.pauseOffset

/-- The onended handler installed on the source node by play, run when
the platform delivers the node's ended event (on natural exhaustion or
after the node was stopped): if this.loop is false at delivery time, it
clears isPlaying, cancels the progress poll (not modelled) and invokes
the captured onEnded callback. -/
def handleEnded (onEnded : Option Nat) (p : PCMPlayer) : PCMPlayer × List Ev :=
  if p.loop then (p, [])
  else
    ({ p with isPlaying := false },
     match onEnded with
     | some cb => [Ev.endedInvoked cb]
     | none => [])

end PCMPlayer

/-- A decoded 10-second buffer at the shared 24 kHz rate (240000 silent
samples), used by concrete player states below. -/
def b10 : AudioBuffer :=
  { samples := List.replicate 240000 0, sampleRate := 24000 }

/-- The duration of b10 is 10 seconds. -/
theorem b10_duration : b10.duration = 10 := by
  simp only [b10, AudioBuffer.duration, List.length_replicate]
  norm_num

/-- The source node of a non-looping session playing b10 from offset 0
with onProgress id 1 and onEnded id 2. -/
def srcW : SourceNode :=
  { buffer := b10, rate := 1, loop := false, startOffset := 0,
    sessionOnEnded := some 2 }

/-- A player in the middle of a non-looping session on b10: playing from
offset 0 since clock time 0 at rate 1. -/
def pW : PCMPlayer :=
  { buffer := some b10, source := some srcW, isPlaying := true,
    playbackRate := 1, pauseOffset := 0, startTime := 0,
    onProgressCb := some 1, onEndedCb := some 2, loop := false }

/-- The same session with looping enabled. -/
def pL : PCMPlayer :=
  { pW with source := some { srcW with loop := true }, loop := true }

/-- The AppState enumeration of the UI layer (types module). -/
inductive AppState where
  | IDLE
  | RECORDING
  | ANALYZING
  | PLAYING_AUDIO
deriving DecidableEq

/-- A dialogue line as in the types module: speaker and text. -/
structure DialogueLine where
  speaker : String
  text : String
deriving DecidableEq

/-- The per-line length contribution used by the activeLineIndex
computation: l.text.length + 5 (text length plus the fixed 5-character
separator allowance). -/
def lineSpan (l : DialogueLine) : ℚ :=
  (l.text.length : ℚ) + 5

/-- totalChars of DialogueCard: lines.reduce((sum, l) =>
sum + l.text.length + 5, 0). -/
def totalChars (lines : List DialogueLine) : ℚ :=
  lines.foldl (fun sum l => sum + lineSpan l) 0

/-- The findIndex loop of activeLineIndex with its mutable accumulator
acc made explicit: the index of the first line whose inclusive span
[start, start + text.length + 5] contains currentPos, if any. -/
def findActive (currentPos : ℚ) (acc : ℚ) : List DialogueLine → Option Nat
  | [] => none
  | l :: rest =>
      if currentPos ≥ acc ∧ currentPos ≤ acc + lineSpan l then some 0
      else (findActive currentPos (acc + lineSpan l) rest).map (fun n => n + 1)

/-- The activeLineIndex useMemo of DialogueCard: -1 when (appState is
not PLAYING_AUDIO and not isPlaying and audioProgress is exactly 0) or
audioProgress is at least 99.9; otherwise the findIndex result over
currentPos = (audioProgress / 100) * totalChars, with findIndex
returning -1 when no line matches. -/
def activeLineIndex (audioProgress : ℚ) (lines : List DialogueLine)
    (appState : AppState) (isPlaying : Bool) : Int :=
  if (¬appState = AppState.PLAYING_AUDIO ∧ isPlaying = false
        ∧ audioProgress = 0)
      ∨ audioProgress ≥ 999 / 10 then -1
  else
    match findActive ((audioProgress / 100) * totalChars lines) 0 lines with
    | some i => (i : Int)
    | none => -1

/-- Cumulative start position of line i: the sum of the spans of the
first i lines (the value of acc when the findIndex loop reaches line i). -/
def cumStart : List DialogueLine → Nat → ℚ
  | _, 0 => 0
  | [], _ + 1 => 0
  | l :: rest, i + 1 => lineSpan l + cumStart rest i

/-- Line spans are nonnegative. -/
theorem lineSpan_nonneg (l : DialogueLine) : 0 ≤ lineSpan l := by
  unfold lineSpan
  positivity

/-- Cumulative starts are nonnegative. -/
theorem cumStart_nonneg : ∀ (lines : List DialogueLine) (i : Nat),
    0 ≤ cumStart lines i
  | _, 0 => by simp [cumStart]
  | [], _ + 1 => by simp [cumStart]
  | l :: rest, i + 1 => by
      have h1 := lineSpan_nonneg l
      have h2 := cumStart_nonneg rest i
      unfold cumStart
      linarith

/-- If currentPos lies strictly inside the span of line i (spans taken
relative to the running accumulator acc), the findIndex loop returns i. -/
theorem findActive_interior : ∀ (lines : List DialogueLine) (i : Nat)
    (cp acc : ℚ),
    acc + cumStart lines i < cp → cp < acc + cumStart lines (i + 1) →
    findActive cp acc lines = some i
  | [], i, cp, acc, h1, h2 => by
      cases i <;> simp only [cumStart] at h1 h2 <;> linarith
  | l :: rest, 0, cp, acc, h1, h2 => by
      simp only [cumStart] at h1 h2
      unfold findActive
      rw [if_pos]
      constructor <;> linarith
  | l :: rest, i + 1, cp, acc, h1, h2 => by
      simp only [cumStart] at h1 h2
      have hn := cumStart_nonneg rest i
      unfold findActive
      rw [if_neg]
      · rw [findActive_interior rest i cp (acc + lineSpan l)
          (by linarith) (by linarith)]
        rfl
      · rintro ⟨-, hle⟩
        linarith

/-- The JavaScript remainder of 12 by 10 is 2. -/
theorem jsRem_12_10 : jsRem 12 10 = 2 := by
  have hf : Int.floor ((12 : ℚ) / 10) = 1 := by
    rw [Int.floor_eq_iff]
    norm_num
  unfold jsRem ratTrunc
  rw [if_pos (by norm_num : (0 : ℚ) ≤ 12 / 10), hf]
  norm_num

/-- C1: on a playing player, pause() adds (now - startTime) *
playbackRate to pauseOffset and clears isPlaying; getCurrentTime at any
later clock value returns exactly the frozen offset; and a subsequent
play() starts its source at that frozen offset (so never resets to 0),
both when the platform has not yet delivered the stopped source's ended
event and after its handler (handleEnded) has run. -/
theorem pause_then_resume (p : PCMPlayer) (b : AudioBuffer)
    (now t now2 : ℚ) (onP onE c : Option Nat) (lp : Bool)
    (hb : p.buffer = some b) (hp : p.isPlaying = true) :
    (PCMPlayer.pause now p).fst.pauseOffset
        = p.pauseOffset + (now - p.startTime) * p.playbackRate
    ∧ (PCMPlayer.pause now p).fst.isPlaying = false
    ∧ PCMPlayer.getCurrentTime t (PCMPlayer.pause now p).fst
        = (PCMPlayer.pause now p).fst.pauseOffset
    ∧ (PCMPlayer.play onP onE lp now2 (PCMPlayer.pause now p).fst).snd
        = [Ev.started ((PCMPlayer.pause now p).fst.pauseOffset)
            p.playbackRate lp]
    ∧ (PCMPlayer.play onP onE lp now2
          (PCMPlayer.handleEnded c (PCMPlayer.pause now p).fst).fst).snd
        = [Ev.started ((PCMPlayer.pause now p).fst.pauseOffset)
            p.playbackRate lp] := by
  cases hl : p.loop <;>
    simp [PCMPlayer.pause, PCMPlayer.play, PCMPlayer.getCurrentTime,
      PCMPlayer.handleEnded, hp, hb, hl]

/-- Witness for C1: pausing the concrete session pW at clock 3 freezes
offset 3 and a later play starts from offset 3. -/
theorem pause_then_resume_witness :
    pW.isPlaying = true
    ∧ (PCMPlayer.pause 3 pW).fst.pauseOffset
        = pW.pauseOffset + (3 - pW.startTime) * pW.playbackRate
    ∧ (PCMPlayer.play (some 1) (some 2) false 9
          (PCMPlayer.pause 3 pW).fst).snd
        = [Ev.started ((PCMPlayer.pause 3 pW).fst.pauseOffset)
            pW.playbackRate false] :=
  ⟨rfl,
   (pause_then_resume pW b10 3 4 9 (some 1) (some 2) (some 2) false
      rfl rfl).1,
   (pause_then_resume pW b10 3 4 9 (some 1) (some 2) (some 2) false
      rfl rfl).2.2.2.1⟩

/-- The buffer decoded from the four-byte input used in the C2
counterexample. -/
def bNew : AudioBuffer := { samples := pcmSamples [9, 9, 9, 9], sampleRate := 24000 }

/-- Counterexample for C2: on the concrete playing state pW, load
succeeds, emits no stop (empty effect list) and leaves the previously
started source node installed and isPlaying set - the returned state
differs from pW only in buffer and pauseOffset - refuting the claim
that load first stops the active source. -/
theorem load_keeps_source_running :
    PCMPlayer.load [9, 9, 9, 9] pW
        = Except.ok (({ pW with buffer := some bNew, pauseOffset := 0 }
            : PCMPlayer), ([] : List Ev))
    ∧ ({ pW with buffer := some bNew, pauseOffset := 0 } : PCMPlayer).source
        = some srcW
    ∧ ({ pW with buffer := some bNew, pauseOffset := 0 } : PCMPlayer).isPlaying
        = true
    ∧ pW.source = some srcW :=
  ⟨rfl, rfl, rfl, rfl⟩

/-- C2 (amended): for inputs with at least one complete byte pair,
load(bytes) replaces the buffer wholesale with the decoded bytes and
resets pauseOffset to 0, touching nothing else; for inputs with fewer
than 2 bytes the decoder's NotSupportedError escapes and the player is
unchanged. Whenever load returns, it has not stopped an active source
(source and isPlaying are untouched, an in-flight source keeps playing
the old buffer) and it has emitted no platform effect, in particular it
starts no source, so load alone never creates a second active source. -/
theorem load_behavior (bytes : List Nat) (p : PCMPlayer) :
    (2 ≤ bytes.length →
      PCMPlayer.load bytes p
        = Except.ok (({ p with
              buffer := some { samples := pcmSamples bytes, sampleRate := 24000 },
              pauseOffset := 0 } : PCMPlayer), ([] : List Ev)))
    ∧ (bytes.length < 2 →
      PCMPlayer.load bytes p = Except.error DomException.NotSupportedError)
    ∧ (∀ (q : PCMPlayer) (evs : List Ev),
        PCMPlayer.load bytes p = Except.ok (q, evs) →
        q.source = p.source ∧ q.isPlaying = p.isPlaying
          ∧ q.pauseOffset = 0 ∧ evs = []) := by
  refine ⟨?_, ?_, ?_⟩
  · intro h
    unfold PCMPlayer.load
    rw [rawPcm_ok bytes 24000 h]
  · intro h
    unfold PCMPlayer.load
    rw [rawPcm_err bytes 24000 h]
  · intro q evs hq
    unfold PCMPlayer.load at hq
    cases hcase : rawPcmToAudioBuffer bytes 24000 with
    | error e =>
        rw [hcase] at hq
        simp at hq
    | ok b =>
        rw [hcase] at hq
        simp only [Except.ok.injEq, Prod.mk.injEq] at hq
        obtain ⟨hq1, hq2⟩ := hq
        subst hq1
        subst hq2
        exact ⟨rfl, rfl, rfl, rfl⟩

/-- Witness for C2 on concrete inputs: a two-byte load on the fresh
player succeeds and installs the decoded buffer, while a one-byte load
raises NotSupportedError. -/
theorem load_behavior_witness :
    (2 ≤ ([1, 2] : List Nat).length)
    ∧ PCMPlayer.load [1, 2] PCMPlayer.initialPlayer
        = Except.ok (({ PCMPlayer.initialPlayer with
              buffer := some { samples := pcmSamples [1, 2], sampleRate := 24000 },
              pauseOffset := 0 } : PCMPlayer), ([] : List Ev))
    ∧ PCMPlayer.load [1] PCMPlayer.initialPlayer
        = Except.error DomException.NotSupportedError :=
  ⟨by decide, (load_behavior [1, 2] PCMPlayer.initialPlayer).1 (by decide),
   (load_behavior [1] PCMPlayer.initialPlayer).2.1 (by decide)⟩

/-- An 8-byte silent PCM input used for the C3 run; it decodes to 4
samples, a buffer of duration 1/6000 seconds. -/
def bytes8 : List Nat := [0, 0, 0, 0, 0, 0, 0, 0]

/-- The player state produced by loading bytes8 into a fresh player. -/
def p8 : PCMPlayer :=
  { PCMPlayer.initialPlayer with
      buffer := some { samples := pcmSamples bytes8, sampleRate := 24000 },
      pauseOffset := 0 }

/-- C3 (code bug): load a buffer (first conjunct: the load of bytes8
really yields the state p8), play a non-looping session whose onEnded
callback is id 7, then pause at clock 1/12000 - halfway through the
buffer's 1/6000-second duration, before natural exhaustion.  pause()
stops the started source, so the platform queues that node's ended
event (second conjunct); when the event is delivered, the onended
handler installed by play sees loop = false and invokes onEnded id 7
(third conjunct).  Thus an explicit pause() leads to an onEnded
invocation without any natural exhaustion, contradicting the claim that
onEnded fires only on natural buffer exhaustion. -/
theorem pause_triggers_onEnded :
    PCMPlayer.load bytes8 PCMPlayer.initialPlayer
        = Except.ok (p8, ([] : List Ev))
    ∧ (PCMPlayer.pause (1 / 12000) (PCMPlayer.play (some 1) (some 7) false 0
        p8).fst).snd
      = [Ev.endedQueued (some 7)]
    ∧ (PCMPlayer.handleEnded (some 7)
        (PCMPlayer.pause (1 / 12000) (PCMPlayer.play (some 1) (some 7) false 0
          p8).fst).fst).snd
      = [Ev.endedInvoked 7] :=
  ⟨rfl, rfl, rfl⟩

/-- C4: getCurrentTime returns pauseOffset verbatim whenever isPlaying
is false, and while playing returns pauseOffset + (now - startTime) *
playbackRate, reduced by the JavaScript remainder modulo the buffer
duration exactly when looping is enabled. -/
theorem getCurrentTime_formula (p : PCMPlayer) (b : AudioBuffer)
    (now : ℚ) (hb : p.buffer = some b) :
    (p.isPlaying = false → PCMPlayer.getCurrentTime now p = p.pauseOffset)
    ∧ (p.isPlaying = true → PCMPlayer.getCurrentTime now p
        = (if p.loop = true
            then jsRem (p.pauseOffset + (now - p.startTime) * p.playbackRate)
                  b.duration
            else p.pauseOffset + (now - p.startTime) * p.playbackRate)) := by
  constructor
  · intro h
    simp [PCMPlayer.getCurrentTime, h]
  · intro h
    cases hl : p.loop <;> simp [PCMPlayer.getCurrentTime, h, hb, hl]

/-- Witness for C4, the loop-wrap example of the claim: a looping
session on the 10-second buffer b10, 12 elapsed seconds at rate 1,
reports position 2 rather than 12. -/
theorem getCurrentTime_formula_witness :
    pL.buffer = some b10 ∧ pL.isPlaying = true
    ∧ PCMPlayer.getCurrentTime 12 pL = 2 := by
  refine ⟨rfl, rfl, ?_⟩
  have h := (getCurrentTime_formula pL b10 12 rfl).2 rfl
  rw [h]
  have hl : pL.loop = true := rfl
  rw [if_pos hl, b10_duration]
  have he : pL.pauseOffset + (12 - pL.startTime) * pL.playbackRate = 12 := by
    norm_num [pL, pW]
  rw [he]
  exact jsRem_12_10

/-- C6: play() is a no-op when no buffer is loaded or when already
playing: the whole player state is returned unchanged and no platform
effect (in particular no source start) is emitted; consequently, of two
immediately consecutive play() calls at most one can start a source. -/
theorem play_guard_noop (p : PCMPlayer) (cb1 ce1 cb2 ce2 : Option Nat)
    (l1 l2 : Bool) (now1 now2 : ℚ) :
    ((p.buffer = none ∨ p.isPlaying = true) →
        PCMPlayer.play cb1 ce1 l1 now1 p = (p, []))
    ∧ ((PCMPlayer.play cb2 ce2 l2 now2
          (PCMPlayer.play cb1 ce1 l1 now1 p).fst).snd = []
        ∨ (PCMPlayer.play cb1 ce1 l1 now1 p).snd = []) := by
  constructor
  · rintro (hb | hp)
    · simp [PCMPlayer.play, hb]
    · cases hbuf : p.buffer <;> simp [PCMPlayer.play, hbuf, hp]
  · cases hbuf : p.buffer with
    | none =>
        right
        simp [PCMPlayer.play, hbuf]
    | some b =>
        cases hp : p.isPlaying with
        | false =>
            left
            simp [PCMPlayer.play, hbuf, hp]
        | true =>
            right
            simp [PCMPlayer.play, hbuf, hp]

/-- Witness for C6: a second play() on the already-playing pW returns
the state unchanged with no effects. -/
theorem play_guard_noop_witness :
    PCMPlayer.play (some 9) (some 9) false 7 pW = (pW, [])
    ∧ ((PCMPlayer.play (some 8) (some 8) false 8
          (PCMPlayer.play (some 9) (some 9) false 7 pW).fst).snd = []
        ∨ (PCMPlayer.play (some 9) (some 9) false 7 pW).snd = []) :=
  ⟨(play_guard_noop pW (some 9) (some 9) (some 8) (some 8) false false
      7 8).1 (Or.inr rfl),
   (play_guard_noop pW (some 9) (some 9) (some 8) (some 8) false false
      7 8).2⟩

/-- Counterexample for C7: on a fresh player with no buffer loaded,
seek(5) is observable - getCurrentTime afterwards reports 5 instead of
the initial 0 - refuting the claim that every transport operation
before load() leaves no observable effect on the reported position. -/
theorem preload_seek_observable :
    PCMPlayer.getCurrentTime 0
        (PCMPlayer.seek 5 0 PCMPlayer.initialPlayer).fst = 5
    ∧ PCMPlayer.getCurrentTime 0 PCMPlayer.initialPlayer = 0 :=
  ⟨rfl, rfl⟩

/-- C7 (amended): before any load() no transport operation raises an
error; play() and pause() leave the player completely unchanged with no
effects, stop() only resets pauseOffset to 0, getDuration() returns 0
and getCurrentTime() returns the stored offset; but seek(s) records
pauseOffset = s (observable through getCurrentTime) and setRate(r)
records playbackRate = r, which persists into later playback. -/
theorem preload_transport (p : PCMPlayer) (cb ce : Option Nat) (l : Bool)
    (s r now : ℚ) (hb : p.buffer = none) (hp : p.isPlaying = false)
    (hs : p.source = none) :
    PCMPlayer.play cb ce l now p = (p, [])
    ∧ PCMPlayer.pause now p = (p, [])
    ∧ (PCMPlayer.stop p).fst = { p with pauseOffset := 0 }
    ∧ (PCMPlayer.stop p).snd = []
    ∧ (PCMPlayer.seek s now p).fst = { p with pauseOffset := s }
    ∧ (PCMPlayer.seek s now p).snd = []
    ∧ PCMPlayer.setRate r p = { p with playbackRate := r }
    ∧ PCMPlayer.getDuration p = 0
    ∧ PCMPlayer.getCurrentTime now p = p.pauseOffset := by
  refine ⟨?_, ?_, ?_, ?_, ?_, ?_, ?_, ?_, ?_⟩
  · simp [PCMPlayer.play, hb]
  · simp [PCMPlayer.pause, hp]
  · unfold PCMPlayer.stop
    ext <;> simp [hs, hp]
  · simp [PCMPlayer.stop, PCMPlayer.stopSourceEvs, hs]
  · have h1 : (PCMPlayer.seek s now p).fst
        = { p with source := none, isPlaying := false, pauseOffset := s } := by
      simp [PCMPlayer.seek, PCMPlayer.stop, hp]
    rw [h1]
    ext <;> simp [hs, hp]
  · simp [PCMPlayer.seek, PCMPlayer.stop, PCMPlayer.stopSourceEvs, hp, hs]
  · unfold PCMPlayer.setRate
    ext <;> simp [hs]
  · simp [PCMPlayer.getDuration, hb]
  · simp [PCMPlayer.getCurrentTime, hp]

/-- Witness for C7 at the fresh player: seek records offset 5 and
getDuration reports 0. -/
theorem preload_transport_witness :
    PCMPlayer.initialPlayer.buffer = none
    ∧ (PCMPlayer.seek 5 0 PCMPlayer.initialPlayer).fst
        = { PCMPlayer.initialPlayer with pauseOffset := 5 }
    ∧ PCMPlayer.getDuration PCMPlayer.initialPlayer = 0 :=
  ⟨rfl,
   (preload_transport PCMPlayer.initialPlayer none none false 5 2 0
      rfl rfl rfl).2.2.2.2.1,
   (preload_transport PCMPlayer.initialPlayer none none false 5 2 0
      rfl rfl rfl).2.2.2.2.2.2.2.1⟩

/-- A single five-character dialogue line. -/
def lineHello : DialogueLine := { speaker := "A", text := "Hello" }

/-- Counterexample for C9: at progress exactly 0 while audio playback is
active (appState = PLAYING_AUDIO), the mapping returns line index 0, not
the no-active-line sentinel -1 that the claim promises for progress
exactly 0. -/
theorem activeLine_zero_during_playback :
    activeLineIndex 0 [lineHello] AppState.PLAYING_AUDIO false = 0
    ∧ activeLineIndex 0 [lineHello] AppState.PLAYING_AUDIO false ≠ -1 := by
  have h0 : activeLineIndex 0 [lineHello] AppState.PLAYING_AUDIO false = 0 := by
    unfold activeLineIndex
    rw [if_neg (by norm_num)]
    have hcp : ((0 : ℚ) / 100) * totalChars [lineHello] = 0 := by norm_num
    rw [hcp]
    have hfind : findActive 0 0 [lineHello] = some 0 := by
      unfold findActive
      rw [if_pos]
      exact ⟨le_refl 0, by have := lineSpan_nonneg lineHello; linarith⟩
    rw [hfind]
    rfl
  exact ⟨h0, by rw [h0]; norm_num⟩

/-- C9 (amended): the mapping returns the sentinel -1 whenever progress
is at least 99.9, and at progress exactly 0 when playback is idle
(appState is not PLAYING_AUDIO and isPlaying is false); at progress 0
during active playback it instead returns the first line; and for
progress below 99.9 whose position (progress/100) * totalChars lies
strictly between the cumulative boundaries of line i it returns i. -/
theorem activeLine_mapping (progress : ℚ) (lines : List DialogueLine)
    (st : AppState) (pl : Bool) (i : Nat) :
    (progress ≥ 999 / 10 → activeLineIndex progress lines st pl = -1)
    ∧ (¬st = AppState.PLAYING_AUDIO → pl = false → progress = 0 →
        activeLineIndex progress lines st pl = -1)
    ∧ (progress < 999 / 10 →
        cumStart lines i < (progress / 100) * totalChars lines →
        (progress / 100) * totalChars lines < cumStart lines (i + 1) →
        activeLineIndex progress lines st pl = (i : Int))
    ∧ (∀ l rest, lines = l :: rest → st = AppState.PLAYING_AUDIO →
        progress = 0 → activeLineIndex progress lines st pl = 0) := by
  refine ⟨?_, ?_, ?_, ?_⟩
  · intro h
    unfold activeLineIndex
    rw [if_pos (Or.inr h)]
  · intro h1 h2 h3
    unfold activeLineIndex
    rw [if_pos (Or.inl ⟨h1, h2, h3⟩)]
  · intro hlt h1 h2
    have hne0 : ¬progress = 0 := by
      intro h0
      rw [h0] at h1
      have hz : ((0 : ℚ) / 100) * totalChars lines = 0 := by norm_num
      rw [hz] at h1
      have := cumStart_nonneg lines i
      linarith
    unfold activeLineIndex
    rw [if_neg]
    · have hf := findActive_interior lines i
        ((progress / 100) * totalChars lines) 0
        (by simpa using h1) (by simpa using h2)
      rw [hf]
    · rintro (⟨-, -, h0⟩ | hge)
      · exact hne0 h0
      · linarith
  · rintro l rest rfl hst h0
    unfold activeLineIndex
    rw [if_neg]
    · have hz : (progress / 100) * totalChars (l :: rest) = 0 := by
        rw [h0]
        norm_num
      rw [hz]
      have hf : findActive 0 0 (l :: rest) = some 0 := by
        unfold findActive
        rw [if_pos]
        exact ⟨le_refl 0, by have := lineSpan_nonneg l; linarith⟩
      rw [hf]
      rfl
    · rintro (⟨hnp, -, -⟩ | hge)
      · exact hnp hst
      · rw [h0] at hge
        norm_num at hge

/-- Two concrete dialogue lines: spans 10 and 7, total length 17. -/
def lines2 : List DialogueLine :=
  [{ speaker := "A", text := "Hello" }, { speaker := "B", text := "Hi" }]

/-- Witness for C9 on the two-line dialogue lines2: progress 100 and
idle progress 0 map to -1, progress 70 lands strictly inside line 1
(position 11.9 in the span from 10 to 17) and maps to index 1, and
progress 0 during playback maps to line 0. -/
theorem activeLine_mapping_witness :
    activeLineIndex 100 lines2 AppState.IDLE false = -1
    ∧ activeLineIndex 0 lines2 AppState.IDLE false = -1
    ∧ activeLineIndex 70 lines2 AppState.IDLE false = 1
    ∧ activeLineIndex 0 lines2 AppState.PLAYING_AUDIO false = 0 := by
  have hHello : ("Hello".length : ℚ) = 5 := by
    rw [show "Hello".length = 5 from rfl]
    norm_num
  have hHi : ("Hi".length : ℚ) = 2 := by
    rw [show "Hi".length = 2 from rfl]
    norm_num
  refine ⟨?_, ?_, ?_, ?_⟩
  · exact (activeLine_mapping 100 lines2 AppState.IDLE false 1).1
      (by norm_num)
  · exact (activeLine_mapping 0 lines2 AppState.IDLE false 1).2.1
      (by simp) rfl rfl
  · refine (activeLine_mapping 70 lines2 AppState.IDLE false 1).2.2.1
      (by norm_num) ?_ ?_
    · show cumStart lines2 1 < ((70 : ℚ) / 100) * totalChars lines2
      simp only [lines2, cumStart, totalChars, lineSpan, List.foldl_cons,
        List.foldl_nil, hHello, hHi]
      norm_num
    · show ((70 : ℚ) / 100) * totalChars lines2 < cumStart lines2 2
      simp only [lines2, cumStart, totalChars, lineSpan, List.foldl_cons,
        List.foldl_nil, hHello, hHi]
      norm_num
  · exact (activeLine_mapping 0 lines2 AppState.PLAYING_AUDIO false 1).2.2.2
      { speaker := "A", text := "Hello" }
      [{ speaker := "B", text := "Hi" }] rfl rfl rfl

end SWJ
